import Mathlib

/-!
# Show-and-tell deck: `ScrollableCode.js` and `theme.js`

A shallow embedding of the two modules of the repository.

* `src/ScrollableCode.js` exports a function component
  `props => <FullScreenCode style={{ height: ... }} {...props} />`.
* `src/theme.js` exports an object literal that spreads a base theme and a
  syntax-highlight preset and then sets four keys.

Both are object constructions, so the embedding is a small model of JavaScript
values, of property lookup, of property creation and of object spread, with
the conversion of values to strings that the template literal applies and the
creation of an element from an attribute record. The component runs in a store
of objects, so that what a call writes is explicit.
-/

set_option autoImplicit false

namespace Deck

/-! ## JavaScript values -/

/-- The outcome of converting an object to a string, which runs the object's
`toString`/`valueOf`, that is user code: the text it yields, a `TypeError` of
the language (no usable method, or a result that is not a string-convertible
primitive), or a value that the user code throws. -/
inductive Conversion (α : Type) where
  | text (s : String)
  | typeError
  | throws (thrown : α)

/-- JavaScript values over a type `ν` of numbers.

An object is carried by its own enumerable string-keyed data properties, in
order, together with the outcome of converting it to a string. Arrays and
functions are objects. -/
inductive JSValue (ν : Type) where
  | undefined
  | null
  | bool (b : Bool)
  | number (n : ν)
  | bigint (z : Int)
  | string (s : String)
  | symbol (description : String)
  | object (fields : List (String × JSValue ν)) (strConv : Conversion (JSValue ν))

/-- What an expression of the code modelled here can throw: a `TypeError` raised
by the language, or the value thrown by user code that a conversion runs. -/
inductive JSError (ν : Type) where
  | typeError
  | thrown (value : JSValue ν)

/-- A record of own enumerable data properties. -/
abbrev Obj (ν : Type) := List (String × JSValue ν)

variable {ν : Type}

/-- An object written as a literal `{ ... }`: an ordinary object, whose string
conversion is the one inherited from `Object.prototype`. -/
def JSValue.plain (fields : Obj ν) : JSValue ν :=
  .object fields (.text "[object Object]")

/-- Own property lookup: the value of the first (only) entry for `k`. -/
def getOwn : Obj ν → String → Option (JSValue ν)
  | [], _ => none
  | (k', v) :: rest, k => if k' = k then some v else getOwn rest k

/-- Whether `o` has an own property `k`. -/
def hasOwn (o : Obj ν) (k : String) : Bool :=
  (getOwn o k).isSome

/-- The property read `o.k`: `undefined` when the property is missing. -/
def getProp (o : Obj ν) (k : String) : JSValue ν :=
  (getOwn o k).getD .undefined

/-- The own property keys, in order. -/
def ownKeys (o : Obj ν) : List String :=
  o.map Prod.fst

/-- The operation `CreateDataProperty`: an existing key keeps its place and takes the new
value, a new key goes to the end. -/
def setProp : Obj ν → String → JSValue ν → Obj ν
  | [], k, v => [(k, v)]
  | (k', v') :: rest, k, v =>
    if k' = k then (k', v) :: rest else (k', v') :: setProp rest k v

/-- Object spread `{...target, ...source}` (`CopyDataProperties`): for every own key
of the source, in order, read the property and create it on the target. -/
def spread (target source : Obj ν) : Obj ν :=
  (ownKeys source).foldl (fun acc k => setProp acc k (getProp source k)) target

/-- The read `o.d.p`, as far as it is defined: the own property `p` of the object
stored under the own property `d`. -/
def getIn (o : Obj ν) (d p : String) : Option (JSValue ν) :=
  match getOwn o d with
  | some (.object fields _) => getOwn fields p
  | _ => none

/-- The abstract operation `ToString`, as a template literal applies it to a
substitution. `numberToString` is the language's `Number::toString`. An object
is converted by its own methods, and what they throw is thrown on. -/
def toStringJS (numberToString : ν → String) : JSValue ν → Except (JSError ν) String
  | .undefined => .ok "undefined"
  | .null => .ok "null"
  | .bool true => .ok "true"
  | .bool false => .ok "false"
  | .number n => .ok (numberToString n)
  | .bigint z => .ok (toString z)
  | .string s => .ok s
  | .symbol _ => .error .typeError
  | .object _ (.text s) => .ok s
  | .object _ .typeError => .error .typeError
  | .object _ (.throws v) => .error (.thrown v)

/-! ## Numbers and `Number::toString` -/

/-- A Number value. `integral` is a finite double whose value is an integer, `-0`
included: `magnitude` is an integer that a double holds exactly. `fractional`
is any other finite double, over a type `φ` whose conversion to a string is a
parameter of the model. -/
inductive JSNumber (φ : Type) where
  | nan
  | infinity (negative : Bool)
  | integral (negative : Bool) (magnitude : Nat)
  | fractional (x : φ)

/-- The Number value of an integer. -/
def JSNumber.ofInt {φ : Type} (z : Int) : JSNumber φ :=
  .integral (decide (z < 0)) z.natAbs

/-- The number of binary digits of `n`, with `n` itself as the bound on the
number of steps. -/
def bitLengthAux : Nat → Nat → Nat
  | 0, _ => 0
  | fuel + 1, n => if n = 0 then 0 else bitLengthAux fuel (n / 2) + 1

/-- The number of binary digits of `n`. -/
def bitLength (n : Nat) : Nat :=
  bitLengthAux n n

/-- The distance from the double `n` to the next double above it, for an integer
`n` from `2^53` on; below `2^53` every integer is a double and the value is `1`. -/
def ulp (n : Nat) : Nat :=
  2 ^ (bitLength n - 53)

/-- Whether the integer `m` has the double `n` as its Number value (round to
nearest, ties to the even significand). Above `n` the nearest double is `ulp n`
away; below `n` it is `ulp n` away, or half of that when `n` is a power of two.
Distances are compared four-fold to stay within the integers. -/
def roundsTo (m n : Nat) : Bool :=
  let g := ulp n
  let evenSignificand : Bool := (n / g) % 2 == 0
  if n ≤ m then
    decide (4 * (m - n) < 2 * g) || (4 * (m - n) == 2 * g && evenSignificand)
  else
    let gap := if n == 2 ^ (bitLength n - 1) then g else 2 * g
    decide (4 * (n - m) < gap) || (4 * (n - m) == gap && evenSignificand)

/-- The number of decimal digits of `n`. -/
def digitCount (n : Nat) : Nat :=
  (Nat.toDigits 10 n).length

/-- The integer with `k` significant decimal digits, among the two that enclose
`n`, whose Number value is `n`, when there is one; `d` is the number of digits
of `n`. Of two, the closer to `n`, and at the same distance the one with the
even last digit. -/
def candidate (n d k : Nat) : Option Nat :=
  let p := 10 ^ (d - k)
  let lo := n / p * p
  let hi := lo + p
  match roundsTo lo n, roundsTo hi n with
  | true, true =>
    if n - lo < hi - n then some lo
    else if hi - n < n - lo then some hi
    else if (lo / p) % 2 = 0 then some lo else some hi
  | true, false => some lo
  | false, true => some hi
  | false, false => none

/-- Step 5 of `Number::toString` for an integer double `n`: the integer
`s × 10^(n-k)` with the least number `k` of significant digits whose Number
value is `n`. -/
def shortestDecimal (n : Nat) : Nat :=
  ((List.range' 1 (digitCount n)).findSome? (candidate n (digitCount n))).getD n

/-- The integer `m` without its trailing decimal zeros; `fuel` bounds the number
of zeros removed. -/
def stripZeros : Nat → Nat → Nat
  | 0, m => m
  | fuel + 1, m => if m % 10 = 0 ∧ m ≠ 0 then stripZeros fuel (m / 10) else m

/-- The exponent form of `Number::toString` for an integer `m` of 22 digits or
more: the significant digits, with a point after the first when there are
several, then `e+` and the decimal exponent. -/
def exponential (m : Nat) : String :=
  let n := digitCount m
  match Nat.toDigits 10 (stripZeros n m) with
  | [] => ""
  | [c] => String.mk [c] ++ "e+" ++ Nat.repr (n - 1)
  | c :: rest => String.mk (c :: '.' :: rest) ++ "e+" ++ Nat.repr (n - 1)

/-- The operation `Number::toString` on an integer double: "0" for both zeros, a
minus sign for a negative value, then the shortest decimal written out in full
when it is below `10^21` and in the exponent form otherwise. -/
def integerToString (negative : Bool) (n : Nat) : String :=
  if n = 0 then "0"
  else
    (if negative then "-" else "") ++
      (if shortestDecimal n < 10 ^ 21 then Nat.repr (shortestDecimal n)
       else exponential (shortestDecimal n))

/-- The operation `Number::toString` (radix 10). -/
def JSNumber.toStringJS {φ : Type} (fractionToString : φ → String) : JSNumber φ → String
  | .nan => "NaN"
  | .infinity false => "Infinity"
  | .infinity true => "-Infinity"
  | .integral negative n => integerToString negative n
  | .fractional x => fractionToString x

/-! ## `src/ScrollableCode.js` -/

/-- The styled component `FullScreenCode = styled.div({...})`: its tag and its style
object. -/
structure StyledComponent (ν : Type) where
  tag : String
  styles : Obj ν

/-- The constant `FullScreenCode` of `ScrollableCode.js`. -/
def FullScreenCode : StyledComponent ν where
  tag := "div"
  styles :=
    [("textAlign", .string "left"),
     ("& pre", .plain
        [("margin", .string "0 !important"),
         ("height", .string "100%"),
         ("overflow", .string "auto")])]

/-- A React element: the component it instantiates and its props. The library
also keeps a `key` and a `ref` on the element, outside the props; the model
keeps the type and the props. -/
structure Element (ν : Type) where
  type : StyledComponent ν
  props : Obj ν

/-- The attribute names `React.createElement` never copies into the props of the
element. -/
def reservedProps : List String := ["key", "ref", "__self", "__source"]

/-- Whether `React.createElement` leaves the attribute `k` out of the props: the
reserved names, and `__proto__`, for which the library's assignment
`props[k] = config[k]` sets the prototype and creates no own property. -/
def skipped (k : String) : Bool :=
  decide (k ∈ reservedProps) || decide (k = "__proto__")

/-- The props that `React.createElement(type, config)` gives the element: for
every own key of `config` that is not skipped, in order, `props[k] = config[k]`
on a new object. -/
def elementProps (config : Obj ν) : Obj ν :=
  (ownKeys config).foldl
    (fun acc k => if skipped k = true then acc else setProp acc k (getProp config k)) []

/-- The objects a call works on, each at its address. -/
abbrev Store (ν : Type) := List (Obj ν)

/-- The object at address `a`. -/
def readObject (s : Store ν) (a : Nat) : Obj ν :=
  s.getD a []

/-- A new object with the given properties: the store with the object added and
the address of the object. -/
def newObject (s : Store ν) (o : Obj ν) : Store ν × Nat :=
  (s ++ [o], s.length)

/-- Copy the own properties of the object at `source` onto the object at
`target`, as the spread attribute `{...props}` does onto the attribute record
under construction. Only the object at `target` is written. -/
def assignInto (s : Store ν) (target source : Nat) : Store ν :=
  s.set target (spread (readObject s target) (readObject s source))

/-- What a call of the component leaves behind: the element it returns and the
props record as it is after the call. -/
structure Rendered (ν : Type) where
  element : Element ν
  propsAfter : Obj ν

/-- The body of the default export of `ScrollableCode.js`,
`props => <FullScreenCode style={{ height: ${props.height}vh }} {...props} />`,
run in a store with the props record at the address `props`. The template
literal is evaluated first; then the attribute record is created with the
`style` attribute, the props are spread onto it, and the element is created
from it. -/
def ScrollableCode.body (numberToString : ν → String) (s : Store ν) (props : Nat) :
    Except (JSError ν) (Store ν × Element ν) :=
  match toStringJS numberToString (getProp (readObject s props) "height") with
  | .error e => .error e
  | .ok h =>
    let created := newObject s [("style", .plain [("height", .string (h ++ "vh"))])]
    let s' := assignInto created.1 created.2 props
    .ok (s', { type := FullScreenCode, props := elementProps (readObject s' created.2) })

/-- The default export of `ScrollableCode.js` called on a props record, which is
a record of data properties, as the rendering library passes one: the body run
in the store that holds the props record alone. -/
def ScrollableCode (numberToString : ν → String) (props : Obj ν) :
    Except (JSError ν) (Rendered ν) :=
  match ScrollableCode.body numberToString [props] 0 with
  | .error e => .error e
  | .ok (s, element) => .ok { element := element, propsAfter := readObject s 0 }

/-- The attribute record the component builds once the template literal has
produced the text `t`. -/
def attributes (t : String) (props : Obj ν) : Obj ν :=
  spread [("style", .plain [("height", .string (t ++ "vh"))])] props

/-- The `style` attribute of an element, when it has one. -/
def Element.style (e : Element ν) : Option (JSValue ν) :=
  getOwn e.props "style"

/-- The `height` field of the `style` attribute of an element: `none` when the
element has no `style`, when `style` is not an object or when it has no own
`height`. -/
def Element.styleHeight (e : Element ν) : Option (JSValue ν) :=
  getIn e.props "style" "height"

/-! ## `src/theme.js` -/

/-- The `colors` literal of `theme.js`. -/
def colorsOverride : JSValue ν := .plain [("code", .string "#000")]

/-- The `pre` literal of `theme.js`. -/
def preOverride : JSValue ν := .plain [("fontSize", .string "1.3rem")]

/-- The `h5` literal of `theme.js`. -/
def h5Override : JSValue ν := .plain [("margin", .string "2rem 0")]

/-- The `Slide` literal of `theme.js`. -/
def slideOverride : JSValue ν :=
  .plain [("width", .string "80vw"), ("marginLeft", .string "auto"),
          ("marginRight", .string "auto")]

/-- The default export of `theme.js`. `base` is the imported `theme` and `preset`
is the value of `syntaxHighlighterPrism({ prism: { style: okaidia } })`, both
from libraries outside the repository. The literal starts from an empty
object, spreads `base`, spreads `preset`, then creates `colors`, `pre`, `h5`
and `Slide` in that order. -/
def theme (base preset : Obj ν) : Obj ν :=
  let o : Obj ν := spread (spread [] base) preset
  setProp (setProp (setProp (setProp o "colors" colorsOverride) "pre" preOverride)
    "h5" h5Override) "Slide" slideOverride

/-- The record of the keys the literal of `theme.js` sets after the two spreads. -/
def localOverrides : Obj ν :=
  [("colors", colorsOverride), ("pre", preOverride), ("h5", h5Override),
   ("Slide", slideOverride)]

/-- The top-level keys the literal of `theme.js` sets itself. -/
def overriddenKeys : List String := ["colors", "pre", "h5", "Slide"]

/-! ## Property lookup after creation and spread -/

theorem getOwn_setProp (o : Obj ν) (k k' : String) (v : JSValue ν) :
    getOwn (setProp o k v) k' = if k = k' then some v else getOwn o k' := by
  induction o with
  | nil =>
    simp [setProp, getOwn]
  | cons e rest ih =>
    obtain ⟨a, b⟩ := e
    by_cases h : a = k
    · subst h
      by_cases h' : a = k' <;> simp [setProp, getOwn, h']
    · by_cases h' : a = k'
      · subst h'
        have hne : ¬ k = a := fun h'' => h h''.symm
        simp [setProp, getOwn, h, hne]
      · simp [setProp, getOwn, h, h', ih]

theorem getOwn_isSome_iff (o : Obj ν) (k : String) :
    (getOwn o k).isSome = true ↔ k ∈ ownKeys o := by
  induction o with
  | nil => simp [getOwn, ownKeys]
  | cons e rest ih =>
    obtain ⟨a, b⟩ := e
    by_cases h : a = k
    · simp [getOwn, ownKeys, h]
    · have hne : ¬ k = a := fun h'' => h h''.symm
      simp only [getOwn, h, if_false, ih]
      simp [ownKeys, hne]

theorem getOwn_eq_none_iff (o : Obj ν) (k : String) :
    getOwn o k = none ↔ ¬ k ∈ ownKeys o := by
  rw [← getOwn_isSome_iff]
  cases getOwn o k <;> simp

theorem getOwn_foldl_setProp (g : String → JSValue ν) (ks : List String) (t : Obj ν)
    (k : String) :
    getOwn (ks.foldl (fun acc k' => setProp acc k' (g k')) t) k
      = if k ∈ ks then some (g k) else getOwn t k := by
  induction ks generalizing t with
  | nil => simp
  | cons a rest ih =>
    rw [List.foldl_cons, ih, getOwn_setProp]
    by_cases h : k ∈ rest
    · simp [h]
    · by_cases h' : a = k
      · subst h'
        simp
      · have hne : ¬ k = a := fun h'' => h' h''.symm
        simp [h, h', hne]

theorem some_getProp_of_mem (o : Obj ν) (k : String) (h : k ∈ ownKeys o) :
    some (getProp o k) = getOwn o k := by
  have h' := (getOwn_isSome_iff o k).mpr h
  unfold getProp
  cases hk : getOwn o k with
  | none => simp [hk] at h'
  | some v => rfl

/-- Lookup in `{...t, ...s}`: the source's property when the source has the key,
the target's otherwise. -/
theorem getOwn_spread (t s : Obj ν) (k : String) :
    getOwn (spread t s) k = if k ∈ ownKeys s then getOwn s k else getOwn t k := by
  unfold spread
  rw [getOwn_foldl_setProp]
  by_cases h : k ∈ ownKeys s
  · simp [h, some_getProp_of_mem s k h]
  · simp [h]

theorem getOwn_spread_of_some (t s : Obj ν) (k : String) (v : JSValue ν)
    (h : getOwn s k = some v) : getOwn (spread t s) k = some v := by
  have hm : k ∈ ownKeys s := (getOwn_isSome_iff s k).mp (by simp [h])
  rw [getOwn_spread, if_pos hm, h]

theorem getOwn_foldl_setProp_unless (skip : String → Bool) (g : String → JSValue ν)
    (ks : List String) (t : Obj ν) (k : String) :
    getOwn (ks.foldl (fun acc k' => if skip k' = true then acc else setProp acc k' (g k')) t) k
      = if k ∈ ks ∧ skip k = false then some (g k) else getOwn t k := by
  induction ks generalizing t with
  | nil => simp
  | cons a rest ih =>
    rw [List.foldl_cons, ih]
    by_cases hs : skip a = true
    · by_cases h' : a = k
      · subst h'
        simp [hs]
      · have hne : ¬ k = a := fun h'' => h' h''.symm
        simp [hs, hne]
    · by_cases h : k ∈ rest
      · by_cases hk : skip k = false
        · simp [h, hk]
        · simp [hs, hk, getOwn_setProp]
          intro hak
          exact absurd (hak ▸ (Bool.eq_false_iff.mpr hs)) hk
      · by_cases h' : a = k
        · subst h'
          simp [hs, getOwn_setProp]
        · have hne : ¬ k = a := fun h'' => h' h''.symm
          simp [hs, h, h', hne, getOwn_setProp]

/-- Lookup in the props of a created element: the attribute's value, unless the
name is skipped. -/
theorem getOwn_elementProps (config : Obj ν) (k : String) :
    getOwn (elementProps config) k = if skipped k = true then none else getOwn config k := by
  unfold elementProps
  rw [getOwn_foldl_setProp_unless]
  by_cases hs : skipped k = true
  · simp [hs, getOwn]
  · by_cases hm : k ∈ ownKeys config
    · simp [hs, hm, some_getProp_of_mem config k hm]
    · simp [hs, hm, getOwn, (getOwn_eq_none_iff config k).mpr hm]

theorem getOwn_spread_of_none (t s : Obj ν) (k : String)
    (h : getOwn s k = none) : getOwn (spread t s) k = getOwn t k := by
  have hm : ¬ k ∈ ownKeys s := fun hk => by
    have := (getOwn_isSome_iff s k).mpr hk
    simp [h] at this
  rw [getOwn_spread, if_neg hm]

/-! ## `Number::toString` on the safe integers -/

theorem bitLengthAux_le (fuel n k : Nat) (h : n < 2 ^ k) : bitLengthAux fuel n ≤ k := by
  induction fuel generalizing n k with
  | zero => simp [bitLengthAux]
  | succ f ih =>
    unfold bitLengthAux
    by_cases h0 : n = 0
    · simp [h0]
    · rw [if_neg h0]
      cases k with
      | zero =>
        simp at h
        exact absurd h h0
      | succ j =>
        have hd : n / 2 < 2 ^ j := by
          rw [Nat.div_lt_iff_lt_mul (by decide)]
          rw [pow_succ] at h
          exact h
        exact Nat.succ_le_succ (ih (n / 2) j hd)

theorem ulp_of_lt (n : Nat) (h : n < 2 ^ 53) : ulp n = 1 := by
  have hb : bitLength n ≤ 53 := bitLengthAux_le n n 53 h
  simp [ulp, Nat.sub_eq_zero_of_le hb]

theorem roundsTo_of_lt (m n : Nat) (h : n < 2 ^ 53) (hr : roundsTo m n = true) : m = n := by
  unfold roundsTo at hr
  rw [ulp_of_lt n h] at hr
  by_cases hle : n ≤ m
  · simp only [hle, if_true] at hr
    simp at hr
    omega
  · simp only [hle, if_false] at hr
    by_cases hp : (n == 2 ^ (bitLength n - 1)) = true
    · simp [hp] at hr
      omega
    · simp [hp] at hr
      omega

theorem candidate_of_lt (n d k m : Nat) (h : n < 2 ^ 53) (hc : candidate n d k = some m) :
    m = n := by
  unfold candidate at hc
  simp only at hc
  split at hc
  · rename_i h1 h2
    split at hc
    · exact roundsTo_of_lt m n h (by simp at hc; rw [← hc]; exact h1)
    · split at hc
      · exact roundsTo_of_lt m n h (by simp at hc; rw [← hc]; exact h2)
      · split at hc
        · exact roundsTo_of_lt m n h (by simp at hc; rw [← hc]; exact h1)
        · exact roundsTo_of_lt m n h (by simp at hc; rw [← hc]; exact h2)
  · rename_i h1 h2
    exact roundsTo_of_lt m n h (by simp at hc; rw [← hc]; exact h1)
  · rename_i h1 h2
    exact roundsTo_of_lt m n h (by simp at hc; rw [← hc]; exact h2)
  · simp at hc

theorem shortestDecimal_of_lt (n : Nat) (h : n < 2 ^ 53) : shortestDecimal n = n := by
  unfold shortestDecimal
  cases hf : (List.range' 1 (digitCount n)).findSome? (candidate n (digitCount n)) with
  | none => rfl
  | some m =>
    obtain ⟨k, _, hk⟩ := List.exists_of_findSome?_eq_some hf
    exact candidate_of_lt n (digitCount n) k m h hk

/-- Below `2^53` the conversion of an integer is its decimal numeral. -/
theorem integerToString_of_lt (negative : Bool) (n : Nat) (h : n < 2 ^ 53) :
    integerToString negative n
      = if n = 0 then "0" else (if negative then "-" else "") ++ Nat.repr n := by
  unfold integerToString
  rw [shortestDecimal_of_lt n h]
  have h21 : n < 10 ^ 21 := lt_trans h (by norm_num)
  rw [if_pos h21]

theorem toStringJS_ofInt {φ : Type} (fractionToString : φ → String) (z : Int)
    (h : z.natAbs < 2 ^ 53) :
    JSNumber.toStringJS fractionToString (JSNumber.ofInt z) = toString z := by
  unfold JSNumber.ofInt JSNumber.toStringJS
  simp only
  rw [integerToString_of_lt _ _ h]
  cases z with
  | ofNat m =>
    cases m with
    | zero => rfl
    | succ j =>
      have hn : ¬ ((Int.ofNat (j + 1)) < 0) := Int.not_lt.mpr (Int.ofNat_nonneg _)
      simp only [hn, decide_False, Int.natAbs_ofNat]
      simp
      rfl
  | negSucc j =>
    have hn : (Int.negSucc j) < 0 := Int.negSucc_lt_zero j
    simp [hn]
    rfl

/-! ## What a call of `ScrollableCode` returns -/

theorem ScrollableCode_ok (numberToString : ν → String) (props : Obj ν) (t : String)
    (h : toStringJS numberToString (getProp props "height") = .ok t) :
    ScrollableCode numberToString props
      = .ok { element :=
                { type := FullScreenCode, props := elementProps (attributes t props) }
              propsAfter := props } := by
  have hb : ScrollableCode.body numberToString [props] 0
      = .ok ([props, attributes t props],
          { type := FullScreenCode, props := elementProps (attributes t props) }) := by
    have h' : toStringJS numberToString (getProp (readObject [props] 0) "height") = .ok t := h
    simp only [ScrollableCode.body, h']
    simp [newObject, assignInto, readObject, attributes]
  simp [ScrollableCode, hb, readObject]

theorem ScrollableCode_error (numberToString : ν → String) (props : Obj ν) (e : JSError ν)
    (h : toStringJS numberToString (getProp props "height") = .error e) :
    ScrollableCode numberToString props = .error e := by
  have h' : toStringJS numberToString (getProp (readObject [props] 0) "height") = .error e := h
  simp [ScrollableCode, ScrollableCode.body, h']

theorem ScrollableCode_returns_iff (numberToString : ν → String) (props : Obj ν) :
    (∃ r, ScrollableCode numberToString props = .ok r)
      ↔ ∃ t, toStringJS numberToString (getProp props "height") = .ok t := by
  cases h : toStringJS numberToString (getProp props "height") with
  | error e => simp [ScrollableCode_error numberToString props e h]
  | ok t => simp [ScrollableCode_ok numberToString props t h]

/-- A call of the body leaves every object that the store held before the call
as it was: the only object written is the attribute record created in the call. -/
theorem ScrollableCode.body_preserves (numberToString : ν → String) (s s' : Store ν)
    (props a : Nat) (element : Element ν) (ha : a < s.length)
    (h : ScrollableCode.body numberToString s props = .ok (s', element)) :
    readObject s' a = readObject s a := by
  unfold ScrollableCode.body at h
  cases ht : toStringJS numberToString (getProp (readObject s props) "height") with
  | error e => simp [ht] at h
  | ok t =>
    simp only [ht, Except.ok.injEq, Prod.mk.injEq] at h
    rw [← h.1]
    simp only [assignInto, newObject, readObject]
    rw [List.getD_eq_getElem?_getD, List.getElem?_set_ne (Nat.ne_of_gt ha),
      List.getElem?_append_left ha, List.getD_eq_getElem?_getD]

/-- The style attribute of the attribute record survives in the element. -/
theorem getOwn_style_elementProps (config : Obj ν) :
    getOwn (elementProps config) "style" = getOwn config "style" := by
  rw [getOwn_elementProps]
  rfl

/-! ## Lookup in the merged theme -/

theorem getOwn_theme (base preset : Obj ν) (k : String) :
    getOwn (theme base preset) k =
      if k ∈ overriddenKeys then getOwn localOverrides k
      else if k ∈ ownKeys preset then getOwn preset k else getOwn base k := by
  unfold theme
  simp only [getOwn_setProp, getOwn_spread]
  by_cases h1 : "Slide" = k
  · subst h1; simp [overriddenKeys, localOverrides, getOwn]
  by_cases h2 : "h5" = k
  · subst h2; simp [overriddenKeys, localOverrides, getOwn]
  by_cases h3 : "pre" = k
  · subst h3; simp [overriddenKeys, localOverrides, getOwn]
  by_cases h4 : "colors" = k
  · subst h4; simp [overriddenKeys, localOverrides, getOwn]
  have e1 : ¬ k = "Slide" := fun h => h1 h.symm
  have e2 : ¬ k = "h5" := fun h => h2 h.symm
  have e3 : ¬ k = "pre" := fun h => h3 h.symm
  have e4 : ¬ k = "colors" := fun h => h4 h.symm
  have hbase : (if k ∈ ownKeys base then getOwn base k else getOwn ([] : Obj ν) k)
      = getOwn base k := by
    by_cases hb : k ∈ ownKeys base
    · simp [hb]
    · simp [hb, getOwn, (getOwn_eq_none_iff base k).mpr hb]
  simp [h1, h2, h3, h4, e1, e2, e3, e4, overriddenKeys, hbase]

theorem getIn_theme (base preset : Obj ν) (d p : String) :
    getIn (theme base preset) d p =
      if d ∈ overriddenKeys then getIn localOverrides d p
      else if hasOwn preset d = true then getIn preset d p else getIn base d p := by
  unfold getIn hasOwn
  rw [getOwn_theme]
  by_cases h : d ∈ overriddenKeys
  · simp [h]
  · by_cases h' : d ∈ ownKeys preset
    · have hs := (getOwn_isSome_iff preset d).mpr h'
      simp [h, h', hs]
    · have hn := (getOwn_eq_none_iff preset d).mpr h'
      simp [h, h', hn]

theorem mem_ownKeys_theme (base preset : Obj ν) (k : String)
    (h : k ∈ ownKeys (theme base preset)) :
    k ∈ ownKeys base ∨ k ∈ ownKeys preset ∨ k ∈ overriddenKeys := by
  by_cases h1 : k ∈ overriddenKeys
  · exact Or.inr (Or.inr h1)
  by_cases h2 : k ∈ ownKeys preset
  · exact Or.inr (Or.inl h2)
  refine Or.inl ?_
  have hs := (getOwn_isSome_iff (theme base preset) k).mpr h
  rw [getOwn_theme, if_neg h1, if_neg h2] at hs
  exact (getOwn_isSome_iff base k).mp hs

/-! ## Properties of `ScrollableCode` -/

/-- C1 as stated fails on the integers: with `height = 1e21`, an integer, the
style height is "1e+21vh" and not the decimal numeral of the integer followed
by "vh". -/
theorem integer_height_counterexample :
    getOwn [("height", JSValue.number (JSNumber.ofInt (10 ^ 21) : JSNumber Empty))] "style"
        = none ∧
      ∃ r, ScrollableCode (JSNumber.toStringJS Empty.elim)
          [("height", .number (JSNumber.ofInt (10 ^ 21)))] = .ok r ∧
        r.element.styleHeight = some (.string "1e+21vh") ∧
        r.element.styleHeight ≠ some (.string "1000000000000000000000vh") := by
  refine ⟨rfl, _, rfl, rfl, fun h => ?_⟩
  have h' : (some (.string "1e+21vh") : Option (JSValue (JSNumber Empty)))
      = some (.string "1000000000000000000000vh") := h
  simp at h'

/-- C1, amended: for every number `h` and every props record that carries
`height = h` and no `style` key, the component returns an element whose style
has a `height` field equal to the string conversion of `h` followed by "vh";
when `h` is an integer of magnitude below `2^53`, that is the decimal numeral of
the integer followed by "vh". -/
theorem height_style_of_number {φ : Type} (fractionToString : φ → String)
    (h : JSNumber φ) (props : Obj (JSNumber φ))
    (hh : getOwn props "height" = some (.number h))
    (hs : getOwn props "style" = none) :
    ∃ r, ScrollableCode (JSNumber.toStringJS fractionToString) props = .ok r ∧
      r.element.styleHeight
        = some (.string (JSNumber.toStringJS fractionToString h ++ "vh")) ∧
      ∀ z : Int, z.natAbs < 2 ^ 53 → h = JSNumber.ofInt z →
        r.element.styleHeight = some (.string (toString z ++ "vh")) := by
  have ht : toStringJS (JSNumber.toStringJS fractionToString) (getProp props "height")
      = .ok (JSNumber.toStringJS fractionToString h) := by
    simp [getProp, hh, toStringJS]
  have hstyle : Element.styleHeight
      { type := FullScreenCode,
        props := elementProps (attributes (JSNumber.toStringJS fractionToString h) props) }
      = some (.string (JSNumber.toStringJS fractionToString h ++ "vh")) := by
    simp [Element.styleHeight, getIn, getOwn_style_elementProps, attributes,
      getOwn_spread_of_none _ _ _ hs, getOwn, JSValue.plain]
  refine ⟨_, ScrollableCode_ok _ props _ ht, hstyle, ?_⟩
  intro z hz hz'
  rw [hstyle, hz', toStringJS_ofInt fractionToString z hz]

/-- C1, amended, at `height = 50` and at `height = -7`: the style heights are
"50vh" and "-7vh". -/
theorem height_style_of_number_witness :
    (∃ r, ScrollableCode (JSNumber.toStringJS Empty.elim)
        [("height", .number (JSNumber.ofInt 50)), ("children", .string "let x = 1")] = .ok r ∧
      r.element.styleHeight = some (.string "50vh")) ∧
    (∃ r, ScrollableCode (JSNumber.toStringJS Empty.elim)
        [("height", .number (JSNumber.ofInt (-7)))] = .ok r ∧
      r.element.styleHeight = some (.string "-7vh")) := by
  constructor
  · obtain ⟨r, hr, _, hz⟩ := height_style_of_number Empty.elim (JSNumber.ofInt 50)
      [("height", .number (JSNumber.ofInt 50)), ("children", .string "let x = 1")] rfl rfl
    exact ⟨r, hr, hz 50 (by decide) rfl⟩
  · obtain ⟨r, hr, _, hz⟩ := height_style_of_number Empty.elim (JSNumber.ofInt (-7))
      [("height", .number (JSNumber.ofInt (-7)))] rfl rfl
    exact ⟨r, hr, hz (-7) (by decide) rfl⟩

/-- C2 as stated fails: for a props record with neither `height` nor `style` the
returned element has a style whose `height` field is the string "undefinedvh",
which is neither absent nor `undefined`. -/
theorem missing_height_counterexample :
    getOwn [("children", JSValue.string "let x = 1")] "height" = (none : Option (JSValue Int)) ∧
      getOwn [("children", JSValue.string "let x = 1")] "style" = (none : Option (JSValue Int)) ∧
      ∃ r, ScrollableCode (fun z : Int => toString z) [("children", .string "let x = 1")]
          = .ok r ∧
        r.element.styleHeight = some (.string "undefinedvh") ∧
        r.element.styleHeight ≠ none ∧
        r.element.styleHeight ≠ some .undefined := by
  refine ⟨rfl, rfl, _, rfl, rfl, fun h => ?_, fun h => ?_⟩
  · have h' : (some (.string "undefinedvh") : Option (JSValue Int)) = none := h
    simp at h'
  · have h' : (some (.string "undefinedvh") : Option (JSValue Int)) = some .undefined := h
    simp at h'

/-- C2, amended: for every props record with no `height` and no `style` property
the component returns an element whose style has the `height` field
"undefinedvh". -/
theorem missing_height_style (numberToString : ν → String) (props : Obj ν)
    (hh : getOwn props "height" = none) (hs : getOwn props "style" = none) :
    ∃ r, ScrollableCode numberToString props = .ok r ∧
      r.element.styleHeight = some (.string "undefinedvh") := by
  have ht : toStringJS numberToString (getProp props "height") = .ok "undefined" := by
    simp [getProp, hh, toStringJS]
  refine ⟨_, ScrollableCode_ok numberToString props _ ht, ?_⟩
  simp [Element.styleHeight, getIn, getOwn_style_elementProps, attributes,
    getOwn_spread_of_none _ _ _ hs, getOwn, JSValue.plain]

/-- C2, amended, at the empty props record. -/
theorem missing_height_style_witness :
    getOwn ([] : Obj Int) "height" = none ∧ getOwn ([] : Obj Int) "style" = none ∧
      ∃ r, ScrollableCode (fun z : Int => toString z) [] = .ok r ∧
        r.element.styleHeight = some (.string "undefinedvh") :=
  ⟨rfl, rfl, missing_height_style (fun z : Int => toString z) [] rfl rfl⟩

/-- C3 as stated fails: with `height = 50` and a forwarded style that sets
`height` to "10px" the element's style height is "10px", not "50vh"; with a
forwarded style that omits `height` the element's style has no height at all. -/
theorem forwarded_style_counterexample :
    (∃ r, ScrollableCode (fun z : Int => toString z)
        [("height", .number 50), ("style", .plain [("height", .string "10px")])] = .ok r ∧
      r.element.styleHeight = some (.string "10px") ∧
      r.element.styleHeight ≠ some (.string "50vh")) ∧
    (∃ r, ScrollableCode (fun z : Int => toString z)
        [("height", .number 50), ("style", .plain [("color", .string "red")])] = .ok r ∧
      r.element.styleHeight = none ∧
      r.element.styleHeight ≠ some (.string "50vh")) := by
  refine ⟨⟨_, rfl, rfl, fun h => ?_⟩, ⟨_, rfl, rfl, fun h => ?_⟩⟩
  · have h' : (some (.string "10px") : Option (JSValue Int)) = some (.string "50vh") := h
    simp at h'
  · have h' : (none : Option (JSValue Int)) = some (.string "50vh") := h
    simp at h'

/-- C3, amended: for every props record that carries a numeric height `h` and a
forwarded `style` object `s`, the component returns an element whose style
height is the `height` field of `s` (absent when `s` omits it): the forwarded
style wins over the computed height. -/
theorem forwarded_style_height (numberToString : ν → String) (h : ν) (props s : Obj ν)
    (c : Conversion (JSValue ν))
    (hh : getOwn props "height" = some (.number h))
    (hs : getOwn props "style" = some (.object s c)) :
    ∃ r, ScrollableCode numberToString props = .ok r ∧
      r.element.styleHeight = getOwn s "height" := by
  have ht : toStringJS numberToString (getProp props "height") = .ok (numberToString h) := by
    simp [getProp, hh, toStringJS]
  refine ⟨_, ScrollableCode_ok numberToString props _ ht, ?_⟩
  simp [Element.styleHeight, getIn, getOwn_style_elementProps, attributes,
    getOwn_spread_of_some _ _ _ _ hs]

/-- C3, amended, at `height = 50` with a forwarded style `{height: "10px"}`. -/
theorem forwarded_style_height_witness :
    ∃ r, ScrollableCode (fun z : Int => toString z)
        [("height", .number 50), ("style", .plain [("height", .string "10px")])] = .ok r ∧
      r.element.styleHeight = some (.string "10px") :=
  forwarded_style_height (fun z : Int => toString z) 50
    [("height", .number 50), ("style", .plain [("height", .string "10px")])]
    [("height", .string "10px")] (.text "[object Object]") rfl rfl

/-- C10: for every props record that has its own `style` key with value `v`
(`undefined` included), the style of the element the component returns is
exactly `v`, the value of `props.style`: the computed style object is replaced
as a whole. The component returns an element whenever the template literal
over `props.height` evaluates. -/
theorem forwarded_style_replaces (numberToString : ν → String) (props : Obj ν)
    (v : JSValue ν) (t : String)
    (hv : getOwn props "style" = some v)
    (ht : toStringJS numberToString (getProp props "height") = .ok t) :
    ∃ r, ScrollableCode numberToString props = .ok r ∧
      r.element.style = some v ∧
      getProp r.element.props "style" = getProp props "style" := by
  refine ⟨_, ScrollableCode_ok numberToString props _ ht, ?_, ?_⟩
  · simp [Element.style, getOwn_style_elementProps, attributes,
      getOwn_spread_of_some _ _ _ _ hv]
  · simp [getProp, getOwn_style_elementProps, attributes,
      getOwn_spread_of_some _ _ _ _ hv, hv]

/-- C10 at `height = 50` with a forwarded style `{width: "10px"}` and with a
forwarded `style` of `undefined`. -/
theorem forwarded_style_replaces_witness :
    (∃ r, ScrollableCode (fun z : Int => toString z)
        [("height", .number 50), ("style", .plain [("width", .string "10px")])] = .ok r ∧
      r.element.style = some (.plain [("width", .string "10px")]) ∧
      getProp r.element.props "style"
        = getProp [("height", .number 50), ("style", .plain [("width", .string "10px")])]
            "style") ∧
    (∃ r, ScrollableCode (fun z : Int => toString z)
        [("style", .undefined), ("height", .number 50)] = .ok r ∧
      r.element.style = some .undefined ∧
      getProp r.element.props "style"
        = getProp [("style", .undefined), ("height", .number 50)] "style") :=
  ⟨forwarded_style_replaces (fun z : Int => toString z)
      [("height", .number 50), ("style", .plain [("width", .string "10px")])]
      (.plain [("width", .string "10px")]) "50" rfl rfl,
    forwarded_style_replaces (fun z : Int => toString z)
      [("style", .undefined), ("height", .number 50)] .undefined "50" rfl rfl⟩

/-- C4 as stated fails: with `height = 50` and `key = "k"` the props record
contains `key`, a name other than `height` and `style`, but the props of the
element hold `style` and `height` only. -/
theorem reserved_prop_counterexample :
    "key" ≠ "height" ∧ "key" ≠ "style" ∧
      getOwn ([("height", .number 50), ("key", .string "k")] : Obj Int) "key"
        = some (.string "k") ∧
      ∃ r, ScrollableCode (fun z : Int => toString z)
          [("height", .number 50), ("key", .string "k")] = .ok r ∧
        getOwn r.element.props "key" = none ∧
        ownKeys r.element.props = ["style", "height"] :=
  ⟨by decide, by decide, rfl, _, rfl, rfl, rfl⟩

/-- C4, amended: for every props record and every property `p`, other than
`height`, `style` and the names that element creation keeps out of the props
(`key`, `ref`, `__self`, `__source`, `__proto__`), that the record contains
with value `v`, the element the component returns carries `p` in its props with
the value `v`, and the props record is the same after the call; in whatever
store the body runs, every object the store held before the call is the same
after it. The component returns an element whenever the template literal over
`props.height` evaluates. -/
theorem forwarded_prop_unchanged (numberToString : ν → String) (props : Obj ν)
    (p : String) (v : JSValue ν) (t : String)
    (_hp : p ≠ "height") (_hp' : p ≠ "style") (hr : skipped p = false)
    (hv : getOwn props p = some v)
    (ht : toStringJS numberToString (getProp props "height") = .ok t) :
    (∃ r, ScrollableCode numberToString props = .ok r ∧
      getOwn r.element.props p = some v ∧ r.propsAfter = props) ∧
    ∀ (s s' : Store ν) (address a : Nat) (element : Element ν), a < s.length →
      ScrollableCode.body numberToString s address = .ok (s', element) →
      readObject s' a = readObject s a := by
  refine ⟨⟨_, ScrollableCode_ok numberToString props _ ht, ?_, rfl⟩, ?_⟩
  · simp [getOwn_elementProps, hr, attributes, getOwn_spread_of_some _ _ _ _ hv]
  · intro s s' address a element ha hb
    exact ScrollableCode.body_preserves numberToString s s' address a element ha hb

/-- C4, amended, at a props record with `height = 50`, a `key` and a
`className`. -/
theorem forwarded_prop_unchanged_witness :
    skipped "className" = false ∧
      ∃ r, ScrollableCode (fun z : Int => toString z)
          [("height", .number 50), ("key", .string "k"), ("className", .string "wide")]
            = .ok r ∧
        getOwn r.element.props "className" = some (.string "wide") ∧
        r.propsAfter
          = [("height", .number 50), ("key", .string "k"), ("className", .string "wide")] :=
  ⟨by decide, (forwarded_prop_unchanged (fun z : Int => toString z)
    [("height", .number 50), ("key", .string "k"), ("className", .string "wide")]
    "className" (.string "wide") "50" (by decide) (by decide) (by decide) rfl rfl).1⟩

/-- C9 as stated fails: with a symbol as `height` the template literal raises a
`TypeError` and the component returns no element; with an object whose
conversion to a string throws, the component throws the same value. -/
theorem symbol_height_counterexample :
    ScrollableCode (fun z : Int => toString z) [("height", .symbol "h")]
        = .error .typeError ∧
      (¬ ∃ r, ScrollableCode (fun z : Int => toString z) [("height", .symbol "h")] = .ok r) ∧
      ScrollableCode (fun z : Int => toString z)
          [("height", .object [] (.throws (.string "RangeError: boom")))]
        = .error (.thrown (.string "RangeError: boom")) := by
  refine ⟨rfl, ?_, rfl⟩
  rintro ⟨r, hr⟩
  have h' : (Except.error JSError.typeError : Except (JSError Int) (Rendered Int)) = .ok r := hr
  simp at h'

/-- C9, amended: for every props record without an own `key` (the rendering
library passes none), the component returns an element exactly when
`props.height` is neither a symbol nor an object whose conversion to a string
fails, so for a missing height and for every `undefined`, `null`, boolean,
number, bigint or string height. For a symbol, and for an object that the
language cannot convert, it raises a `TypeError`; for an object whose
conversion throws a value, it throws that value. -/
theorem returns_iff_height_converts (numberToString : ν → String) (props : Obj ν)
    (_hk : getOwn props "key" = none) :
    ((∃ r, ScrollableCode numberToString props = .ok r) ↔
      ((∀ d, getProp props "height" ≠ .symbol d) ∧
        (∀ fields, getProp props "height" ≠ .object fields .typeError) ∧
        (∀ fields v, getProp props "height" ≠ .object fields (.throws v)))) ∧
    (∀ d, getProp props "height" = .symbol d →
      ScrollableCode numberToString props = .error .typeError) ∧
    (∀ fields, getProp props "height" = .object fields .typeError →
      ScrollableCode numberToString props = .error .typeError) ∧
    (∀ fields v, getProp props "height" = .object fields (.throws v) →
      ScrollableCode numberToString props = .error (.thrown v)) := by
  refine ⟨?_, ?_, ?_, ?_⟩
  · rw [ScrollableCode_returns_iff]
    cases hv : getProp props "height" with
    | object fields c =>
      cases c <;> simp [toStringJS]
    | bool b => cases b <;> simp [toStringJS]
    | _ => simp [toStringJS]
  · intro d hd
    exact ScrollableCode_error numberToString props _ (by rw [hd]; rfl)
  · intro fields hf
    exact ScrollableCode_error numberToString props _ (by rw [hf]; rfl)
  · intro fields v hf
    exact ScrollableCode_error numberToString props _ (by rw [hf]; rfl)

/-- C9, amended, at a height whose conversion throws the text
"RangeError: boom", and at the string height "tall". -/
theorem returns_iff_height_converts_witness :
    getOwn ([("height", .object [] (.throws (.string "RangeError: boom")))] : Obj Int) "key"
        = none ∧
      ScrollableCode (fun z : Int => toString z)
          [("height", .object [] (.throws (.string "RangeError: boom")))]
        = .error (.thrown (.string "RangeError: boom")) ∧
      ∃ r, ScrollableCode (fun z : Int => toString z) [("height", .string "tall")] = .ok r :=
  ⟨rfl,
    (returns_iff_height_converts (fun z : Int => toString z)
      [("height", .object [] (.throws (.string "RangeError: boom")))] rfl).2.2.2 [] _ rfl,
    (returns_iff_height_converts (fun z : Int => toString z)
      [("height", .string "tall")] rfl).1.mpr
      ⟨fun d h => by simp [getProp, getOwn] at h,
        fun fields h => by simp [getProp, getOwn] at h,
        fun fields v h => by simp [getProp, getOwn] at h⟩⟩

/-! ## Properties of `theme` -/

/-- C5: for every base theme and every preset the merged theme has
`colors.code = "#000"`, `pre.fontSize = "1.3rem"`, `h5.margin = "2rem 0"`,
`Slide.width = "80vw"`, `Slide.marginLeft = "auto"` and
`Slide.marginRight = "auto"`. -/
theorem override_values_present (base preset : Obj ν) :
    getIn (theme base preset) "colors" "code" = some (.string "#000") ∧
    getIn (theme base preset) "pre" "fontSize" = some (.string "1.3rem") ∧
    getIn (theme base preset) "h5" "margin" = some (.string "2rem 0") ∧
    getIn (theme base preset) "Slide" "width" = some (.string "80vw") ∧
    getIn (theme base preset) "Slide" "marginLeft" = some (.string "auto") ∧
    getIn (theme base preset) "Slide" "marginRight" = some (.string "auto") := by
  simp only [getIn_theme]
  refine ⟨?_, ?_, ?_, ?_, ?_, ?_⟩ <;> rfl

/-- C6 as stated fails: a `colors.background` supplied by the base theme, which
the local overrides do not set, is absent from the merged theme; and a
`fonts.body` of the base theme is absent from the merged theme when the preset
defines `fonts` without `body`. -/
theorem residual_key_counterexample :
    (getIn (localOverrides : Obj Int) "colors" "background" = none ∧
      getIn ([("colors", .plain [("background", .string "#fff")])] : Obj Int)
        "colors" "background" = some (.string "#fff") ∧
      getIn (theme ([("colors", .plain [("background", .string "#fff")])] : Obj Int) [])
        "colors" "background" = none) ∧
    (getIn (localOverrides : Obj Int) "fonts" "body" = none ∧
      getIn ([("fonts", .plain [("body", .string "serif")])] : Obj Int)
        "fonts" "body" = some (.string "serif") ∧
      getIn (theme ([("fonts", .plain [("body", .string "serif")])] : Obj Int)
          [("fonts", .plain [("mono", .string "courier")])])
        "fonts" "body" = none) := by
  refine ⟨⟨rfl, rfl, rfl⟩, ⟨rfl, rfl, rfl⟩⟩

/-- C6, amended: for every base theme and preset, every style-domain `d` and
every property `p`: under `colors`, `pre`, `h5` and `Slide` the merged theme
has exactly the local override's `d.p`; under any other `d` it has the preset's
`d.p` when the preset defines `d` and the base theme's `d.p` otherwise. -/
theorem residual_key_lookup (base preset : Obj ν) (d p : String) :
    getIn (theme base preset) d p =
      if d ∈ overriddenKeys then getIn localOverrides d p
      else if hasOwn preset d = true then getIn preset d p else getIn base d p :=
  getIn_theme base preset d p

/-- C7: for every base theme and preset the merged theme's `colors` is exactly
`{code: "#000"}`, `pre` is exactly `{fontSize: "1.3rem"}`, `h5` is exactly
`{margin: "2rem 0"}` and `Slide` is exactly
`{width: "80vw", marginLeft: "auto", marginRight: "auto"}`; with base
`{colors: {text: "#fff"}, pre: {}}` and preset `{colors: {code: "#0f0"}}` the
merged `colors` is `{code: "#000"}` and has no `text`. -/
theorem whole_value_replacement (base preset : Obj ν) :
    getOwn (theme base preset) "colors" = some (.plain [("code", .string "#000")]) ∧
    getOwn (theme base preset) "pre" = some (.plain [("fontSize", .string "1.3rem")]) ∧
    getOwn (theme base preset) "h5" = some (.plain [("margin", .string "2rem 0")]) ∧
    getOwn (theme base preset) "Slide"
      = some (.plain [("width", .string "80vw"), ("marginLeft", .string "auto"),
          ("marginRight", .string "auto")]) ∧
    getOwn (theme ([("colors", .plain [("text", .string "#fff")]), ("pre", .plain [])] : Obj ν)
        [("colors", .plain [("code", .string "#0f0")])]) "colors"
      = some (.plain [("code", .string "#000")]) ∧
    getIn (theme ([("colors", .plain [("text", .string "#fff")]), ("pre", .plain [])] : Obj ν)
        [("colors", .plain [("code", .string "#0f0")])]) "colors" "text" = none := by
  simp only [getOwn_theme, getIn_theme]
  refine ⟨?_, ?_, ?_, ?_, ?_, ?_⟩ <;> rfl

/-- C8: for every base theme, every preset and every top-level key `k` other
than `colors`, `pre`, `h5` and `Slide`, the merged theme's value at `k` is the
preset's when the preset defines `k`, otherwise the base theme's when the base
defines `k`, and `k` is absent when neither defines it; every top-level key of
the merged theme is a key of the base theme, of the preset or of the local
overrides. -/
theorem top_level_precedence (base preset : Obj ν) (k : String)
    (hk : k ∉ overriddenKeys) :
    getOwn (theme base preset) k
        = (match getOwn preset k with
          | some v => some v
          | none => getOwn base k) ∧
      ∀ k', k' ∈ ownKeys (theme base preset) →
        k' ∈ ownKeys base ∨ k' ∈ ownKeys preset ∨ k' ∈ overriddenKeys := by
  refine ⟨?_, mem_ownKeys_theme base preset⟩
  rw [getOwn_theme, if_neg hk]
  by_cases h : k ∈ ownKeys preset
  · rw [if_pos h]
    cases hp : getOwn preset k with
    | none => exact absurd h ((getOwn_eq_none_iff preset k).mp hp)
    | some v => rfl
  · rw [if_neg h, (getOwn_eq_none_iff preset k).mpr h]

/-- C8 at base `{font: "serif", lineHeight: "1.5"}` and preset `{font: "mono"}`:
`font` is the preset's, `lineHeight` the base theme's and `css` is absent. -/
theorem top_level_precedence_witness :
    "font" ∉ overriddenKeys ∧ "lineHeight" ∉ overriddenKeys ∧ "css" ∉ overriddenKeys ∧
    getOwn (theme ([("font", .string "serif"), ("lineHeight", .string "1.5")] : Obj Int)
        [("font", .string "mono")]) "font" = some (.string "mono") ∧
    getOwn (theme ([("font", .string "serif"), ("lineHeight", .string "1.5")] : Obj Int)
        [("font", .string "mono")]) "lineHeight" = some (.string "1.5") ∧
    getOwn (theme ([("font", .string "serif"), ("lineHeight", .string "1.5")] : Obj Int)
        [("font", .string "mono")]) "css" = none :=
  ⟨by decide, by decide, by decide,
    (top_level_precedence _ _ "font" (by decide)).1,
    (top_level_precedence _ _ "lineHeight" (by decide)).1,
    (top_level_precedence _ _ "css" (by decide)).1⟩

end Deck
